import Mathlib

/-!
Verification of the quiz-question generation pipeline of
`generate_quiz_questions.py` (class `QuizQuestionGenerator`).

The Python code is shallowly embedded: dictionaries `{'question': …,
'answer': …, 'category': …}` become the `Question` structure, pandas
rows become explicit structures, and the string manipulation helpers of
Python (`str.strip`, `str.lower`, `str.split`, substring tests,
`float(...)` parsing) are reproduced below character by character.
The embedding is exact for ASCII data (Python's `str.lower`,
`str.isupper`, `str.isalpha` and `float` additionally handle non-ASCII
code points, which none of the fixed template strings of the program
use).
-/

namespace QuizGen

/-- A generated quiz item: `{'question': …, 'answer': …, 'category': …}`.
Answers are modelled as the strings the generators produce (every
deterministic generator builds them with `str(...)`). -/
structure Question where
  question : String
  answer : String
  category : String
deriving DecidableEq, Repr

/-! ### Python string primitives -/

/-- Leading-whitespace removal on a character list. -/
def dropWs (l : List Char) : List Char := l.dropWhile Char.isWhitespace

/-- Python `str.strip()` on a character list: remove leading and trailing
whitespace. -/
def pyStripList (l : List Char) : List Char :=
  ((dropWs l).reverse.dropWhile Char.isWhitespace).reverse

/-- Python `str.strip()`. -/
def pyStrip (s : String) : String := String.mk (pyStripList s.toList)

/-- Python `str.lower()` (ASCII case folding). -/
def pyLower (s : String) : String := String.mk (s.toList.map Char.toLower)

/-- Whether `pat` occurs at the head of `l`. -/
def leadsWith : List Char → List Char → Bool
  | [], _ => true
  | _ :: _, [] => false
  | p :: ps, c :: cs => p == c && leadsWith ps cs

/-- Whether `pat` occurs contiguously somewhere inside `l`. -/
def occursIn (pat : List Char) (l : List Char) : Bool :=
  if leadsWith pat l then true
  else
    match l with
    | [] => false
    | _ :: cs => occursIn pat cs

/-- Python `sub in s` substring test. -/
def containsSub (s sub : String) : Bool := occursIn sub.toList s.toList

/-- Python `s.count(c)` for a single character. -/
def countChar (s : String) (c : Char) : Nat := s.toList.count c

/-- Helper for `pySplit`: split a character list on whitespace runs,
accumulating the current (reversed) word. -/
def splitWsAux : List Char → List Char → List (List Char)
  | [], acc => if acc.isEmpty then [] else [acc.reverse]
  | c :: rest, acc =>
    if c.isWhitespace then
      if acc.isEmpty then splitWsAux rest [] else acc.reverse :: splitWsAux rest []
    else splitWsAux rest (c :: acc)

/-- Python `str.split()` with no argument: split on whitespace runs,
discarding empty pieces. -/
def pySplit (s : String) : List String := (splitWsAux s.toList []).map String.mk

/-- Python `s.replace(',', '')`. -/
def removeCommas (s : String) : String :=
  String.mk (s.toList.filter (fun c => !(c == ',')))

/-- Python `any(c.isupper() for c in s)` (ASCII). -/
def hasUpper (s : String) : Bool := s.toList.any Char.isUpper

/-- Python `any(c.isalpha() for c in s)` (ASCII). -/
def hasAlpha (s : String) : Bool := s.toList.any Char.isAlpha

/-! ### Python `float(...)` literal recognition

`float(str)` strips surrounding whitespace and accepts an optional sign
followed by `inf`/`infinity`/`nan` (case-insensitive) or a decimal
literal `d+ | d+.d* | .d+` with an optional `e`/`E` exponent; single
underscores are permitted between two digits. -/

/-- Consume `(digit | underscore-digit)*` after an initial digit,
rejecting underscores not placed between two digits by leaving them in
the remainder. -/
def digitsUAfter : List Char → List Char
  | [] => []
  | c :: rest =>
    if c.isDigit then digitsUAfter rest
    else if c == '_' then
      match rest with
      | d :: rest2 => if d.isDigit then digitsUAfter rest2 else c :: rest
      | [] => c :: rest
    else c :: rest

/-- Consume one-or-more digits (with medial underscores); `none` when the
input does not start with a digit. -/
def parseDigits1U (l : List Char) : Option (List Char) :=
  match l with
  | c :: rest => if c.isDigit then some (digitsUAfter rest) else none
  | [] => none

/-- Consume the optional fractional digits after the decimal point. -/
def parseFrac (l : List Char) : List Char :=
  match l with
  | c :: rest => if c.isDigit then digitsUAfter rest else l
  | [] => []

/-- Consume the mantissa `d+ | d+.d* | .d+` of a Python float literal. -/
def parseMantissa (l : List Char) : Option (List Char) :=
  match l with
  | c :: rest =>
    if c == '.' then
      match rest with
      | d :: rest2 => if d.isDigit then some (digitsUAfter rest2) else none
      | [] => none
    else
      match parseDigits1U l with
      | some rest2 =>
        match rest2 with
        | c2 :: rest3 => if c2 == '.' then some (parseFrac rest3) else some rest2
        | [] => some []
      | none => none
  | [] => none

/-- Consume an optional leading sign. -/
def parseSign (l : List Char) : List Char :=
  match l with
  | c :: rest => if c == '+' || c == '-' then rest else l
  | [] => []

/-- Recognise the numeric (non-inf/nan) body of a Python float literal. -/
def pyFloatNumeric (l : List Char) : Bool :=
  match parseMantissa l with
  | none => false
  | some rest =>
    match rest with
    | [] => true
    | c :: rest2 =>
      if c == 'e' || c == 'E' then
        match parseDigits1U (parseSign rest2) with
        | some [] => true
        | _ => false
      else false

/-- Whether Python `float(s)` succeeds. -/
def pyFloatParses (s : String) : Bool :=
  let l := parseSign (pyStripList s.toList)
  let low := l.map Char.toLower
  if low == "inf".toList || low == "infinity".toList || low == "nan".toList then true
  else pyFloatNumeric l

/-! ### `is_valid_answer_format` -/

/-- Python `s.startswith(pre)`. -/
def pyStartsWith (s pre : String) : Bool := leadsWith pre.toList s.toList

/-- Code-point lexicographic `≤` on character lists — the comparison
Python's `sorted` performs on strings. -/
def charListLe : List Char → List Char → Bool
  | [], _ => true
  | _ :: _, [] => false
  | a :: as, b :: bs => if a < b then true else if b < a then false else charListLe as bs

/-- Python's string comparison (code-point lexicographic), used
wherever the program sorts strings (`sorted(...)` and pandas' sorted
group keys). -/
def strLe (s₁ s₂ : String) : Bool := charListLe s₁.toList s₂.toList

/-- The "who"-classification of `is_valid_answer_format`:
`question_lower.startswith("who ") or " who " in question_lower`. -/
def whoShaped (question_text : String) : Bool :=
  pyStartsWith (pyLower question_text) "who " || containsSub (pyLower question_text) " who "

/-- The quantity classification of `is_valid_answer_format`:
`"how many" in q or "what amount" in q or q.startswith("how much")`
(on the lower-cased text). -/
def quantityShaped (question_text : String) : Bool :=
  containsSub (pyLower question_text) "how many"
  || containsSub (pyLower question_text) "what amount"
  || pyStartsWith (pyLower question_text) "how much"

/-- `QuizQuestionGenerator.is_valid_answer_format`, translated line by
line (answers are strings, so Python's `not answer` is `answer == ""`,
`str(answer)` is the identity, and `answer_str` is written out as
`pyStrip answer`). -/
def is_valid_answer_format (question_text answer : String) : Bool :=
  if answer == "" || pyStrip answer == "" then false
  else if whoShaped question_text then
    if hasUpper (pyStrip answer) && (pyStrip answer).length < 50 then
      if 0 < countChar (pyStrip answer) '.' || 6 < (pySplit (pyStrip answer)).length then false
      else true
    else false
  else if quantityShaped question_text then
    if pyFloatParses (removeCommas (pyStrip answer)) && !hasAlpha (pyStrip answer) then true
    else false
  else if 100 < (pyStrip answer).length || 1 < countChar (pyStrip answer) '.' then false
  else true

/-- The fixed "boring" substrings of `is_interesting_question`. -/
def boring_patterns : List String :=
  ["what is the total number", "list all", "name all"]

/-- `QuizQuestionGenerator.is_interesting_question`. -/
def is_interesting_question (q : Question) : Bool :=
  let question_text := pyLower q.question
  let answer := pyLower q.answer
  if boring_patterns.any (fun p => containsSub question_text p) then false
  else if 150 < answer.length then false
  else true

/-! ### `deduplicate_questions`

Python state: `seen_questions` (a set of stripped question texts),
`seen_answers` (a `defaultdict(set)` from stripped answer to the set of
first-5-word signatures of accepted questions with that answer), and the
accumulating output list.  Python sets are modelled as
insertion-ordered duplicate-free lists; only membership and
cardinality of these sets are observable in the code. -/

/-- `question_text.lower().split()[:5]` joined with spaces: the
similarity signature used by `deduplicate_questions`. -/
def signature (text : String) : String :=
  String.intercalate " " ((pySplit (pyLower text)).take 5)

/-- Add to a set-as-list (Python `set.add`). -/
def insertIfAbsent (l : List String) (s : String) : List String :=
  if s ∈ l then l else l ++ [s]

/-- Lookup in `seen_answers` (Python `answer in seen_answers` plus
`seen_answers[answer]`). -/
def lookupSigs : List (String × List String) → String → Option (List String)
  | [], _ => none
  | (k, v) :: rest, a => if k == a then some v else lookupSigs rest a

/-- `seen_answers[answer].add(sig)` on a `defaultdict(set)`. -/
def addSig : List (String × List String) → String → String → List (String × List String)
  | [], a, s => [(a, [s])]
  | (k, v) :: rest, a, s =>
    if k == a then (k, insertIfAbsent v s) :: rest else (k, v) :: addSig rest a s

/-- The mutable state of the `deduplicate_questions` loop. -/
structure DedupState where
  seenQ : List String
  seenA : List (String × List String)
  uniq : List Question

/-- Initial state: empty set, empty defaultdict, empty output. -/
def initDedup : DedupState := ⟨[], [], []⟩

/-- The similarity-drop test of the loop body: `answer in seen_answers
and len(seen_answers[answer]) >= 3` followed by the signature
substring-containment scan. -/
def simDrop (sigsOpt : Option (List String)) (sig : String) : Bool :=
  match sigsOpt with
  | none => false
  | some sigs =>
    decide (3 ≤ sigs.length)
      && sigs.any (fun e => containsSub sig e || containsSub e sig)

/-- One iteration of the `deduplicate_questions` loop (the
`question_text`, `answer` and `question_signature` locals are written
out). -/
def dedupStep (st : DedupState) (q : Question) : DedupState :=
  if pyStrip q.question ∈ st.seenQ then st
  else if simDrop (lookupSigs st.seenA (pyStrip q.answer)) (signature (pyStrip q.question)) then
    st
  else
    ⟨st.seenQ ++ [pyStrip q.question],
     addSig st.seenA (pyStrip q.answer) (signature (pyStrip q.question)),
     st.uniq ++ [q]⟩

/-- `QuizQuestionGenerator.deduplicate_questions`. -/
def deduplicate_questions (questions : List Question) : List Question :=
  (questions.foldl dedupStep initDedup).uniq

/-- The distinct first-5-word signatures of the questions in `out`
whose stripped answer is `a`, in first-appearance order — the
specification-level reading of `seen_answers[a]`. -/
def sigsOf (out : List Question) (a : String) : List String :=
  ((out.filter (fun q => pyStrip q.answer == a)).map
    (fun q => signature (pyStrip q.question))).foldl insertIfAbsent []

/-- Specification-level drop condition of the deduplicator, phrased
against the list of previously accepted questions: exact
(whitespace-stripped) text reuse, or ≥ 3 distinct stored signatures for
the answer together with a substring-containment collision. -/
def dropCond (accepted : List Question) (q : Question) : Bool :=
  accepted.any (fun p => pyStrip p.question == pyStrip q.question)
    || (decide (3 ≤ (sigsOf accepted (pyStrip q.answer)).length)
        && (sigsOf accepted (pyStrip q.answer)).any
            (fun e => containsSub (signature (pyStrip q.question)) e
              || containsSub e (signature (pyStrip q.question))))

/-- The loop invariant of `deduplicate_questions`: `seen_questions` is
the set of stripped texts of the accepted questions (which are pairwise
distinct), and `seen_answers` maps each stripped answer of an accepted
question to the distinct signatures of its accepted questions. -/
def stateInv (st : DedupState) : Prop :=
  st.seenQ = st.uniq.map (fun q => pyStrip q.question)
  ∧ (st.uniq.map (fun q => pyStrip q.question)).Nodup
  ∧ ∀ a, lookupSigs st.seenA a =
      (if st.uniq.any (fun q => pyStrip q.answer == a) then some (sigsOf st.uniq a) else none)

/-! ### The post-generation pipeline of `generate_all_questions`

After the five generators run, `generate_all_questions` keeps the
questions accepted by `is_valid_answer_format`, then those accepted by
`is_interesting_question`, then deduplicates.  The generated questions
(including whatever the LLM-backed generators returned) are the input
list. -/

/-- The validate → interest-filter → deduplicate tail of
`generate_all_questions`, applied to the concatenated generator
outputs. -/
def processQuestions (all_questions : List Question) : List Question :=
  deduplicate_questions
    ((all_questions.filter (fun q => is_valid_answer_format q.question q.answer)).filter
      is_interesting_question)

/-- The category labels fixed by the repository: the literal labels of
the deterministic generators plus the `"Comment-Based"` label the
comment prompt mandates. -/
def knownCategories : List String :=
  ["Recognition Count", "Unique Relationships", "Award Amount", "Program Type",
   "Award Type", "Timeframe", "Giver-Recipient Relationship", "Specific Award",
   "Recognition Details", "Comment-Based"]

/-! ### Prepared records and the analysis snapshot

`prepare_data` parses `Date Received` and derives `Month`, `Year`,
`Quarter`; `Award Amount` is coerced to a number with parse failures
defaulted to `0` (so it is always present and non-negative — modelled
as `Nat`; the generators only ever print it through `str(int(...))`). -/

/-- One prepared row of the dataframe. -/
structure Row where
  recipientName : String
  giverName : String
  programName : String
  awardType : String
  awardAmount : Nat
  day : Nat
  month : Nat
  year : Nat
  quarter : Nat
deriving DecidableEq, Repr

/-- `strftime('%B')`: the full month name. -/
def monthName : Nat → String
  | 1 => "January"
  | 2 => "February"
  | 3 => "March"
  | 4 => "April"
  | 5 => "May"
  | 6 => "June"
  | 7 => "July"
  | 8 => "August"
  | 9 => "September"
  | 10 => "October"
  | 11 => "November"
  | 12 => "December"
  | _ => ""

/-- `strftime('%d')`: zero-padded day of month. -/
def pad2 (d : Nat) : String := if d < 10 then "0" ++ toString d else toString d

/-- `strftime('%B %d, %Y')`, e.g. `"March 05, 2025"`. -/
def formatDateLong (r : Row) : String :=
  monthName r.month ++ " " ++ pad2 r.day ++ ", " ++ toString r.year

/-- `strftime('%B %Y')`, e.g. `"March 2025"`. -/
def formatMonthYear (r : Row) : String :=
  monthName r.month ++ " " ++ toString r.year

/-- The fields of the `analyze_data` snapshot consumed by
`generate_factual_questions`: each is a ranking of (key, count/sum)
pairs in the descending order `value_counts`/`sort_values` produced. -/
structure Analysis where
  top_recipients : List (String × Nat)
  top_givers : List (String × Nat)
  recipients_with_most_unique_givers : List (String × Nat)
  top_earners : List (String × Nat)
  programs : List (String × Nat)
  award_types : List (String × Nat)

/-- A single-quote character, used inside generated question texts. -/
def sq : String := (Char.ofNat 39).toString

/-- `QuizQuestionGenerator.generate_factual_questions`.  Python raises
`IndexError` when a required ranking is empty (`list(...)[0]`); the
embedding returns `none` there.  `str(int(top_amount))` on the `Nat`
amount is `toString`. -/
def generate_factual_questions (analysis : Analysis) (df : List Row) :
    Option (List Question) :=
  match analysis.top_recipients.head?, analysis.top_givers.head?,
      analysis.recipients_with_most_unique_givers.head?, analysis.top_earners.head?,
      analysis.programs.head? with
  | some tr, some tg, some tu, some te, some tp =>
    let base : List Question :=
      [⟨"Who received the highest number of recognitions?", tr.1, "Recognition Count"⟩,
     ⟨"How many recognitions did " ++ tr.1 ++ " receive?", toString tr.2, "Recognition Count"⟩,
     ⟨"Who gave the highest number of recognitions?", tg.1, "Recognition Count"⟩,
     ⟨"How many recognitions did " ++ tg.1 ++ " give?", toString tg.2, "Recognition Count"⟩,
     ⟨"Which recipient has the most unique givers?", tu.1, "Unique Relationships"⟩,
     ⟨"How many unique givers did " ++ tu.1 ++ " receive recognitions from?", toString tu.2,
       "Unique Relationships"⟩,
     ⟨"Who received the highest total award amount?", te.1, "Award Amount"⟩,
     ⟨"What was the total award amount received by " ++ te.1 ++ "?", toString te.2,
       "Award Amount"⟩,
     ⟨"Which recognition program was used the most?", tp.1, "Program Type"⟩,
     ⟨"How many times was the " ++ sq ++ tp.1 ++ sq ++ " program used?", toString tp.2,
       "Program Type"⟩]
    let recipientQs :=
      ((analysis.top_recipients.drop 1).take 5).map fun rc =>
        (⟨"How many recognitions did " ++ rc.1 ++ " receive?", toString rc.2,
          "Recognition Count"⟩ : Question)
    let giverQs :=
      ((analysis.top_givers.drop 1).take 5).map fun gc =>
        (⟨"How many recognitions did " ++ gc.1 ++ " give?", toString gc.2,
          "Recognition Count"⟩ : Question)
    let awardTypeQs :=
      (analysis.award_types.filter (fun ac => !(ac.1 == ""))).map fun ac =>
        (⟨"How many recognitions included " ++ sq ++ ac.1 ++ sq ++ " as the award type?",
          toString ac.2, "Award Type"⟩ : Question)
    let timeQs : List Question :=
      [⟨"How many recognitions were given in April 2025?",
        toString (df.filter (fun r => r.month == 4 && r.year == 2025)).length, "Timeframe"⟩,
       ⟨"How many recognitions were given in March 2025?",
        toString (df.filter (fun r => r.month == 3 && r.year == 2025)).length, "Timeframe"⟩,
       ⟨"How many recognitions were given in Q1 2025?",
        toString (df.filter (fun r => r.quarter == 1 && r.year == 2025)).length, "Timeframe"⟩]
    some (base ++ recipientQs ++ giverQs ++ awardTypeQs ++ timeQs)
  | _, _, _, _, _ => none

/-- Binary digit count of `n`, by fuel (exact for `n < 2^128`, far
beyond every value reached here). -/
def bitLenAux : Nat → Nat → Nat
  | 0, _ => 0
  | fuel + 1, n => if n = 0 then 0 else bitLenAux fuel (n / 2) + 1

/-- Binary digit count of `n`. -/
def bitLen (n : Nat) : Nat := bitLenAux 128 n

/-- Round `n / 2^k` to the nearest integer, ties to even — the IEEE-754
rounding step. -/
def roundNearestEven (n k : Nat) : Nat :=
  if k = 0 then n
  else
    let m := n / 2 ^ k
    let r := n % 2 ^ k
    let half := 2 ^ (k - 1)
    if half < r then m + 1
    else if r < half then m
    else if m % 2 = 0 then m else m + 1

/-- `int(n * 0.7)` computed in IEEE double arithmetic, exactly as
Python does for `n < 2^53` (where `float(n)` is exact): the double
closest to 0.7 is `3152519739159347 / 2^52`, the exact product is
rounded to a 53-bit significand (nearest, ties to even) and the result
truncated toward zero.  Unlike the 0.4 and 0.3 limits, `int(n * 0.7)`
is *not* `⌊7n/10⌋` everywhere: `pyIntMul07 90 = 62` while
`⌊7·90/10⌋ = 63` (likewise at 170, 180, 330, …), because 0.7's double
falls short of 7/10 by `2^-52/5`, enough to cross the floor boundary
in the upper part of a binade. -/
def pyIntMul07 (n : Nat) : Nat :=
  let N := n * 3152519739159347
  if N < 2 ^ 53 then N / 2 ^ 52
  else
    let k := bitLen N - 53
    roundNearestEven N k * 2 ^ k / 2 ^ 52

/-- The distinct (giver, recipient) pairs of the dataframe with their
row counts, in first-occurrence order —
`df.groupby(['Giver Name', 'Recipient Name']).size()`. -/
def pairCounts (df : List Row) : List ((String × String) × Nat) :=
  ((df.map (fun r => (r.giverName, r.recipientName))).dedup).map fun p =>
    (p, (df.filter (fun r => (r.giverName, r.recipientName) == p)).length)

/-- `pairs.sort_values('count', ascending=False)`.  pandas' default
quicksort leaves the order of equal counts unspecified (though
deterministic for a fixed library version); the embedding fixes the
stable descending order, on which none of the claims depend. -/
def sortPairsDesc (l : List ((String × String) × Nat)) : List ((String × String) × Nat) :=
  List.insertionSort (fun a b => b.2 ≤ a.2) l

/-- `QuizQuestionGenerator.generate_relationship_questions`.
`int(self.relationship_limit * 0.3)` is an IEEE double product
truncated to an integer; it equals `⌊3·limit/10⌋` on the whole
realistic domain (the double closest to 0.3 falls short of 3/10 by
`2^-54/5`, at most a third of a half-ulp of any integer product, so
the floor never moves).  `int(self.relationship_limit * 0.7)` admits
no such closed form and is rendered by the exact IEEE computation
`pyIntMul07` (e.g. `pyIntMul07 90 = 62`, not 63). -/
def generate_relationship_questions (df : List Row) (relationship_limit : Nat) :
    List Question :=
  let pairs := sortPairsDesc (pairCounts df)
  let pair_limit := min (3 * relationship_limit / 10) pairs.length
  let part1 :=
    (pairs.take pair_limit).filterMap fun pc =>
      if 1 < pc.2 then
        some (⟨"How many times did " ++ pc.1.1 ++ " recognize " ++ pc.1.2 ++ "?",
          toString pc.2, "Giver-Recipient Relationship"⟩ : Question)
      else none
  let date_limit := min (pyIntMul07 relationship_limit) df.length
  let part2 :=
    (df.take date_limit).map fun r =>
      (⟨"Who gave a recognition to " ++ r.recipientName ++ " on " ++ formatDateLong r ++ "?",
        r.giverName, "Giver-Recipient Relationship"⟩ : Question)
  part1 ++ part2

/-! ### `generate_specific_scenario_questions`

`int(self.scenario_limit * 0.4)` and `int(self.scenario_limit * 0.3)`
are IEEE double products truncated toward zero; for every `Nat` limit
below `10^12` they equal `⌊2·limit/5⌋` and `⌊3·limit/10⌋` (the double
closest to 0.4 exceeds 2/5 by 2^-53/5 and the one closest to 0.3 falls
short of 3/10 by 2^-54/5, perturbations far too small to move the
floor at this scale), which is how they are rendered here. -/

/-- `award_limit = int(scenario_limit * 0.4)`. -/
def award_limit (scenario_limit : Nat) : Nat := 2 * scenario_limit / 5

/-- `giver_limit = int(scenario_limit * 0.3)`. -/
def giver_limit (scenario_limit : Nat) : Nat := 3 * scenario_limit / 10

/-- `recipient_limit = int(scenario_limit * 0.3)`. -/
def recipient_limit (scenario_limit : Nat) : Nat := 3 * scenario_limit / 10

/-- The first loop of `generate_specific_scenario_questions`: walk the
rows, emitting an award-amount question for each row with positive
amount while fewer than `alim` have been emitted (`count` is the
running tally). -/
def awardQuestionsAux : List Row → Nat → Nat → List Question
  | [], _, _ => []
  | r :: rest, alim, count =>
    if 0 < r.awardAmount && count < alim then
      (⟨"What award amount did " ++ r.recipientName ++ " receive from " ++ r.giverName
          ++ " on " ++ formatDateLong r ++ "?", toString r.awardAmount, "Specific Award"⟩ :
        Question) :: awardQuestionsAux rest alim (count + 1)
    else awardQuestionsAux rest alim count

/-- `QuizQuestionGenerator.generate_specific_scenario_questions`.  The
two `df.sample(n)` calls draw `n` rows uniformly without replacement;
the draws are modelled as the explicit arguments `sample1`/`sample2`
(theorems about this function constrain their lengths to
`min n (df.length)`, which `DataFrame.sample` guarantees). -/
def generate_specific_scenario_questions (df : List Row) (scenario_limit : Nat)
    (sample1 sample2 : List Row) : List Question :=
  let alim := award_limit scenario_limit
  let glim := giver_limit scenario_limit
  let rlim := recipient_limit scenario_limit
  let part1 := awardQuestionsAux (df.take (min (alim * 2) df.length)) alim 0
  let part2 :=
    if 0 < glim && 0 < df.length then
      sample1.map fun r =>
        (⟨"Who gave a recognition to " ++ r.recipientName ++ " on " ++ formatDateLong r ++ "?",
          r.giverName, "Giver-Recipient Relationship"⟩ : Question)
    else []
  let part3 :=
    if 0 < rlim && 0 < df.length then
      sample2.map fun r =>
        (⟨"Who received a " ++ r.programName ++ " from " ++ r.giverName ++ " in "
            ++ formatMonthYear r ++ "?", r.recipientName, "Recognition Details"⟩ : Question)
    else []
  part1 ++ part2 ++ part3

/-! ### `_find_consecutive_months_recipients`

Its input is `df.groupby(['Recipient Name', 'Year', 'Month']).size()
.reset_index()`: one row per distinct (recipient, year, month) key (the
unused size column is omitted), sorted by key — groupby sorts its keys,
and the recipient grouping inside the function also iterates keys in
sorted order. -/

/-- One row of the per-(recipient, year, month) grouping. -/
structure GroupRow where
  name : String
  year : Nat
  month : Nat
deriving DecidableEq, Repr

/-- The Q1-2025 filter:
`(Year == 2025) & (Month.isin([1, 2, 3]))`. -/
def isQ1_2025 (r : GroupRow) : Bool :=
  r.year == 2025 && (r.month == 1 || r.month == 2 || r.month == 3)

/-- The rows surviving the Q1-2025 filter. -/
def q1Rows (rows : List GroupRow) : List GroupRow := rows.filter isQ1_2025

/-- `q1_2025.groupby('Recipient Name')['Month'].apply(list)` for one
recipient: the months of that recipient's surviving rows, in row
order. -/
def monthsOf (rows : List GroupRow) (n : String) : List Nat :=
  ((q1Rows rows).filter (fun r => r.name == n)).map GroupRow.month

/-- The sorted distinct recipient names of the surviving rows — the
iteration order of the `recipient_months` dict. -/
def groupKeys (rows : List GroupRow) : List String :=
  List.insertionSort (fun a b => strLe a b = true) ((q1Rows rows).map GroupRow.name).dedup

/-- `QuizQuestionGenerator._find_consecutive_months_recipients`:
recipients with at least two surviving group rows, each mapped to its
sorted month list. -/
def find_consecutive_months_recipients (rows : List GroupRow) :
    List (String × List Nat) :=
  (groupKeys rows).filterMap fun n =>
    let ms := monthsOf rows n
    if 2 ≤ ms.length then some (n, List.insertionSort (fun a b => a ≤ b) ms) else none

/-- Whether `n` has a group row in month `m` of 2025. -/
def hasRecordIn (rows : List GroupRow) (n : String) (m : Nat) : Bool :=
  rows.any fun r => r.name == n && r.year == 2025 && r.month == m

/-- The sorted list of months of {1, 2, 3} of 2025 in which `n` has a
group row — the specification-level reading of the flagged value. -/
def q1MonthsPresent (rows : List GroupRow) (n : String) : List Nat :=
  [1, 2, 3].filter (hasRecordIn rows n)

/-! ### `save_questions_formatted`

The text report is modelled by its structured content: the
alphabetically sorted category sections, each holding the globally
numbered questions of that category (`question_num` starts at 1 and is
never reset).  The literal banner/header strings carry no further
logic. -/

/-- The distinct categories of the questions in first-occurrence order
(the `defaultdict` insertion order). -/
def categoriesOf (questions : List Question) : List String :=
  (questions.map Question.category).dedup

/-- `sorted(by_category.items())`: sections in ascending category
order, each with that category's questions in input order. -/
def groupedSections (questions : List Question) : List (String × List Question) :=
  (List.insertionSort (fun a b => strLe a b = true) (categoriesOf questions)).map fun c =>
    (c, questions.filter (fun q => q.category == c))

/-- Assign the running `question_num` (starting at `k`) to every
question of every section. -/
def assignNumbers : Nat → List (String × List Question) → List (String × List (Nat × Question))
  | _, [] => []
  | k, (c, l) :: rest => (c, (List.range' k l.length).zip l) :: assignNumbers (k + l.length) rest

/-- The sections of the report written by
`QuizQuestionGenerator.save_questions_formatted`. -/
def save_questions_formatted_sections (questions : List Question) :
    List (String × List (Nat × Question)) :=
  assignNumbers 1 (groupedSections questions)

/-! ## The string comparison agrees with the library order -/

/-- `charListLe` decides the lexicographic order on character lists. -/
theorem charListLe_iff : ∀ as bs : List Char, charListLe as bs = true ↔ as ≤ bs
  | [], bs => by
    simp [charListLe]
  | a :: as, [] => by
    rw [charListLe]
    constructor
    · intro h
      exact absurd h (by simp)
    · intro h
      exact absurd (lt_of_lt_of_le (List.nil_lt_cons a as) h) (lt_irrefl _)
  | a :: as, b :: bs => by
    rw [charListLe]
    by_cases h1 : a < b
    · rw [if_pos h1]
      constructor
      · intro _
        exact le_of_lt (List.Lex.rel h1)
      · intro _
        rfl
    · rw [if_neg h1]
      by_cases h2 : b < a
      · rw [if_pos h2]
        constructor
        · intro h
          exact absurd h (by simp)
        · intro h
          exact absurd (lt_of_lt_of_le (List.Lex.rel h2 : (b :: bs) < (a :: as)) h)
            (lt_irrefl _)
      · rw [if_neg h2]
        have hab : a = b := le_antisymm (not_lt.mp h2) (not_lt.mp h1)
        subst hab
        rw [charListLe_iff as bs]
        constructor
        · intro h
          rw [← not_lt] at h ⊢
          intro hc
          cases hc with
          | cons h' => exact h h'
          | rel h' => exact absurd h' (lt_irrefl a)
        · intro h
          rw [← not_lt] at h ⊢
          intro hc
          exact h (List.Lex.cons hc)

/-- `strLe` decides the order on strings. -/
theorem strLe_iff (a b : String) : strLe a b = true ↔ a ≤ b := by
  rw [String.le_iff_toList_le]
  exact charListLe_iff a.toList b.toList

/-- The sorting relation used by the embedding is total. -/
theorem strLe_total : ∀ a b : String, strLe a b = true ∨ strLe b a = true := by
  intro a b
  rcases le_total a b with h | h
  · exact Or.inl ((strLe_iff a b).mpr h)
  · exact Or.inr ((strLe_iff b a).mpr h)

/-- The sorting relation used by the embedding is transitive. -/
theorem strLe_trans : ∀ a b c : String, strLe a b = true → strLe b c = true →
    strLe a c = true := by
  intro a b c hab hbc
  exact (strLe_iff a c).mpr (le_trans ((strLe_iff a b).mp hab) ((strLe_iff b c).mp hbc))

/-! ## Lemmas about the validator -/

/-- An answer accepted by the validator does not strip to the empty
string: the first check of `is_valid_answer_format` rejects it. -/
theorem valid_answer_nonempty (t a : String)
    (h : is_valid_answer_format t a = true) : pyStrip a ≠ "" := by
  intro hs
  unfold is_valid_answer_format at h
  rw [hs] at h
  simp at h

/-- Claim C3: for a who-shaped question (text lower-cases to start with
the token `"who "` or to contain `" who "`), the validator accepts the
answer iff its whitespace-stripped form contains an uppercase
character, is under 50 characters, contains no period, and has at most
6 whitespace-separated words. -/
theorem who_validator_characterization (qt a : String) (h : whoShaped qt = true) :
    is_valid_answer_format qt a = true ↔
      (hasUpper (pyStrip a) = true ∧ (pyStrip a).length < 50
        ∧ countChar (pyStrip a) '.' = 0 ∧ (pySplit (pyStrip a)).length ≤ 6) := by
  by_cases hs : pyStrip a = ""
  · constructor
    · intro hv
      exact absurd hs (valid_answer_nonempty qt a hv)
    · rintro ⟨h1, -⟩
      rw [hs] at h1
      exact absurd h1 (by decide)
  · have ha : (a == "") = false := by
      cases h' : a == ""
      · rfl
      · exact absurd (by rw [eq_of_beq h']; rfl) hs
    have hps : (pyStrip a == "") = false := by
      cases h' : pyStrip a == ""
      · rfl
      · exact absurd (eq_of_beq h') hs
    unfold is_valid_answer_format
    rw [h]
    simp only [ha, hps, Bool.or_self, Bool.false_eq_true, if_false, if_true]
    cases h1 : hasUpper (pyStrip a) <;>
      cases h2 : decide ((pyStrip a).length < 50) <;>
        cases h3 : decide (0 < countChar (pyStrip a) '.') <;>
          cases h4 : decide (6 < (pySplit (pyStrip a)).length) <;>
            simp_all
    all_goals omega

/-- Witness for claim C3: `"Who led the project?"` is who-shaped, and
the answer `"John A. Smith Jr. reportedly"` is rejected for it (it
contains periods). -/
theorem who_validator_characterization_witness :
    whoShaped "Who led the project?" = true
      ∧ is_valid_answer_format "Who led the project?" "John A. Smith Jr. reportedly" = false := by
  refine ⟨by decide, ?_⟩
  have h := who_validator_characterization "Who led the project?"
    "John A. Smith Jr. reportedly" (by decide)
  cases hv : is_valid_answer_format "Who led the project?" "John A. Smith Jr. reportedly"
  · rfl
  · exact absurd (h.mp hv).2.2.1 (by decide)

/-- Claim C4: for a quantity-shaped, non-who-shaped question, the
validator accepts the answer iff, after whitespace-stripping and comma
removal, it parses as a Python float and the stripped answer contains
no alphabetic character. -/
theorem quantity_validator_characterization (qt a : String)
    (hw : whoShaped qt = false) (hq : quantityShaped qt = true) :
    is_valid_answer_format qt a = true ↔
      (pyFloatParses (removeCommas (pyStrip a)) = true ∧ hasAlpha (pyStrip a) = false) := by
  by_cases hs : pyStrip a = ""
  · constructor
    · intro hv
      exact absurd hs (valid_answer_nonempty qt a hv)
    · rintro ⟨h1, -⟩
      rw [hs] at h1
      exact absurd h1 (by decide)
  · have ha : (a == "") = false := by
      cases h' : a == ""
      · rfl
      · exact absurd (by rw [eq_of_beq h']; rfl) hs
    have hps : (pyStrip a == "") = false := by
      cases h' : pyStrip a == ""
      · rfl
      · exact absurd (eq_of_beq h') hs
    unfold is_valid_answer_format
    rw [hw, hq]
    simp only [ha, hps, Bool.or_self, Bool.false_eq_true, if_false, if_true]
    cases h1 : pyFloatParses (removeCommas (pyStrip a)) <;>
      cases h2 : hasAlpha (pyStrip a) <;> simp_all

/-- Witness for claim C4: `"How many recognitions did Ann receive?"`
is quantity-shaped and not who-shaped, and the answer `"12,500"` is
accepted for it after comma stripping. -/
theorem quantity_validator_characterization_witness :
    quantityShaped "How many recognitions did Ann receive?" = true
      ∧ is_valid_answer_format "How many recognitions did Ann receive?" "12,500" = true := by
  refine ⟨by decide, ?_⟩
  exact (quantity_validator_characterization "How many recognitions did Ann receive?"
    "12,500" (by decide) (by decide)).mpr ⟨by decide, by decide⟩

/-! ## Lemmas about the deduplicator -/

/-- `seen_answers[a].add(s)` updates the entry at `a` with `s`. -/
theorem lookupSigs_addSig_self (m : List (String × List String)) (a s : String) :
    lookupSigs (addSig m a s) a = some (insertIfAbsent ((lookupSigs m a).getD []) s) := by
  induction m with
  | nil => simp [addSig, lookupSigs, insertIfAbsent]
  | cons kv rest ih =>
    obtain ⟨k, v⟩ := kv
    by_cases hk : k = a
    · subst hk
      simp [addSig, lookupSigs]
    · have hk' : (k == a) = false := beq_eq_false_iff_ne.mpr hk
      simp [addSig, lookupSigs, hk', ih]

/-- `seen_answers[a].add(s)` leaves other entries unchanged. -/
theorem lookupSigs_addSig_ne (m : List (String × List String)) (a b s : String)
    (h : b ≠ a) : lookupSigs (addSig m a s) b = lookupSigs m b := by
  induction m with
  | nil =>
    have hab : (a == b) = false := beq_eq_false_iff_ne.mpr (Ne.symm h)
    simp [addSig, lookupSigs, hab]
  | cons kv rest ih =>
    obtain ⟨k, v⟩ := kv
    by_cases hk : k = a
    · subst hk
      have hkb : (k == b) = false := beq_eq_false_iff_ne.mpr (Ne.symm h)
      simp [addSig, lookupSigs, hkb]
    · have hk' : (k == a) = false := beq_eq_false_iff_ne.mpr hk
      by_cases hkb : k = b
      · subst hkb
        simp [addSig, lookupSigs, hk']
      · have hkb' : (k == b) = false := beq_eq_false_iff_ne.mpr hkb
        simp [addSig, lookupSigs, hk', hkb', ih]

/-- Appending a question with answer `a` inserts its signature into the
stored signature set for `a`. -/
theorem sigsOf_append_self (out : List Question) (q : Question) :
    sigsOf (out ++ [q]) (pyStrip q.answer)
      = insertIfAbsent (sigsOf out (pyStrip q.answer)) (signature (pyStrip q.question)) := by
  unfold sigsOf
  rw [List.filter_append, List.map_append, List.foldl_append]
  simp

/-- Appending a question with a different answer leaves the stored
signature set for `a` unchanged. -/
theorem sigsOf_append_ne (out : List Question) (q : Question) (a : String)
    (h : pyStrip q.answer ≠ a) : sigsOf (out ++ [q]) a = sigsOf out a := by
  unfold sigsOf
  rw [List.filter_append]
  have hq : (pyStrip q.answer == a) = false := beq_eq_false_iff_ne.mpr h
  have : [q].filter (fun p => pyStrip p.answer == a) = [] := by
    simp [List.filter, hq]
  simp [this]

/-- An answer with no accepted question has no stored signatures. -/
theorem sigsOf_eq_nil (out : List Question) (a : String)
    (h : out.any (fun q => pyStrip q.answer == a) = false) : sigsOf out a = [] := by
  unfold sigsOf
  rw [List.any_eq_false] at h
  have : out.filter (fun q => pyStrip q.answer == a) = [] := by
    rw [List.filter_eq_nil_iff]
    exact h
  simp [this]

/-- The initial dedup state satisfies the invariant. -/
theorem stateInv_init : stateInv initDedup := by
  refine ⟨rfl, by simp [initDedup], fun a => ?_⟩
  simp [initDedup, lookupSigs]

/-- One loop iteration preserves the invariant. -/
theorem stateInv_step (st : DedupState) (q : Question) (h : stateInv st) :
    stateInv (dedupStep st q) := by
  obtain ⟨h1, h2, h3⟩ := h
  unfold dedupStep
  by_cases hseen : pyStrip q.question ∈ st.seenQ
  · rw [if_pos hseen]
    exact ⟨h1, h2, h3⟩
  · rw [if_neg hseen]
    by_cases hsim :
        simDrop (lookupSigs st.seenA (pyStrip q.answer)) (signature (pyStrip q.question)) = true
    · rw [if_pos hsim]
      exact ⟨h1, h2, h3⟩
    · rw [if_neg hsim]
      refine ⟨?_, ?_, ?_⟩
      · simpa using congrArg (fun l => l ++ [pyStrip q.question]) h1
      · show (List.map (fun q => pyStrip q.question) (st.uniq ++ [q])).Nodup
        rw [List.map_append, List.nodup_append]
        refine ⟨h2, by simp, ?_⟩
        intro t ht ht'
        simp only [List.map_cons, List.map_nil, List.mem_singleton] at ht'
        subst ht'
        rw [h1] at hseen
        exact hseen ht
      · intro a
        show lookupSigs (addSig st.seenA (pyStrip q.answer) (signature (pyStrip q.question))) a
          = (if (st.uniq ++ [q]).any (fun p => pyStrip p.answer == a) = true
             then some (sigsOf (st.uniq ++ [q]) a) else none)
        by_cases hans : pyStrip q.answer = a
        · subst hans
          rw [lookupSigs_addSig_self]
          have hany : ((st.uniq ++ [q]).any (fun p => pyStrip p.answer == pyStrip q.answer)) = true := by
            simp
          rw [if_pos hany, sigsOf_append_self]
          by_cases hpre : st.uniq.any (fun p => pyStrip p.answer == pyStrip q.answer) = true
          · rw [h3 (pyStrip q.answer), if_pos hpre]
            rfl
          · have hpre' : st.uniq.any (fun p => pyStrip p.answer == pyStrip q.answer) = false :=
              Bool.eq_false_iff.mpr hpre
            rw [h3 (pyStrip q.answer), if_neg (by simp [hpre'])]
            simp [sigsOf_eq_nil st.uniq (pyStrip q.answer) hpre']
        · rw [lookupSigs_addSig_ne _ _ _ _ (Ne.symm hans)]
          have hq' : (pyStrip q.answer == a) = false := beq_eq_false_iff_ne.mpr hans
          have hany : (st.uniq ++ [q]).any (fun p => pyStrip p.answer == a)
              = st.uniq.any (fun p => pyStrip p.answer == a) := by
            simp [hq']
          rw [h3 a, hany, sigsOf_append_ne st.uniq q a hans]

/-- The invariant holds after folding the loop over any question list. -/
theorem stateInv_foldl (qs : List Question) (st : DedupState) (h : stateInv st) :
    stateInv (qs.foldl dedupStep st) := by
  induction qs generalizing st with
  | nil => exact h
  | cons q qs ih => exact ih _ (stateInv_step st q h)

/-- Claim C5: the questions returned by `deduplicate_questions` have
pairwise-distinct whitespace-stripped texts. -/
theorem dedupe_output_texts_nodup (questions : List Question) :
    ((deduplicate_questions questions).map (fun q => pyStrip q.question)).Nodup := by
  unfold deduplicate_questions
  exact (stateInv_foldl questions initDedup stateInv_init).2.1

/-- A stripped text occurs among the mapped texts iff some accepted
question has it. -/
theorem mem_strip_map_iff_any (l : List Question) (t : String) :
    t ∈ l.map (fun q => pyStrip q.question)
      ↔ l.any (fun p => pyStrip p.question == t) = true := by
  rw [List.any_eq_true]
  simp

/-- Claim C2 (amended): a question is dropped by the deduplicator
exactly when its stripped text equals that of a previously accepted
question, or the set of distinct first-5-word signatures of previously
accepted questions sharing its stripped answer has at least 3 elements
and one of them is a substring of (or contains) its signature.  The
cap counts distinct signatures, not accepted questions. -/
theorem dedupe_drop_characterization (qs : List Question) (q : Question) :
    deduplicate_questions (qs ++ [q]) =
      (if dropCond (deduplicate_questions qs) q then deduplicate_questions qs
       else deduplicate_questions qs ++ [q]) := by
  obtain ⟨h1, h2, h3⟩ := stateInv_foldl qs initDedup stateInv_init
  unfold deduplicate_questions
  rw [List.foldl_append, List.foldl_cons, List.foldl_nil]
  generalize hst : qs.foldl dedupStep initDedup = st at *
  unfold dedupStep
  by_cases hseen : pyStrip q.question ∈ st.seenQ
  · rw [if_pos hseen]
    have hA : st.uniq.any (fun p => pyStrip p.question == pyStrip q.question) = true := by
      rw [← mem_strip_map_iff_any, ← h1]
      exact hseen
    have hdc : dropCond st.uniq q = true := by
      unfold dropCond
      rw [hA, Bool.true_or]
    rw [if_pos hdc]
  · rw [if_neg hseen]
    have hA : st.uniq.any (fun p => pyStrip p.question == pyStrip q.question) = false := by
      rw [Bool.eq_false_iff]
      intro hc
      exact hseen (by rw [h1]; exact (mem_strip_map_iff_any st.uniq (pyStrip q.question)).mpr hc)
    have hsimEq :
        simDrop (lookupSigs st.seenA (pyStrip q.answer)) (signature (pyStrip q.question))
          = (decide (3 ≤ (sigsOf st.uniq (pyStrip q.answer)).length)
             && (sigsOf st.uniq (pyStrip q.answer)).any
                 (fun e => containsSub (signature (pyStrip q.question)) e
                   || containsSub e (signature (pyStrip q.question)))) := by
      rw [h3 (pyStrip q.answer)]
      by_cases hpre : st.uniq.any (fun p => pyStrip p.answer == pyStrip q.answer) = true
      · rw [if_pos hpre]
        rfl
      · have hpre' := Bool.eq_false_iff.mpr hpre
        rw [if_neg (by simp [hpre'])]
        rw [sigsOf_eq_nil st.uniq _ hpre']
        simp [simDrop]
    by_cases hsim :
        simDrop (lookupSigs st.seenA (pyStrip q.answer)) (signature (pyStrip q.question)) = true
    · rw [if_pos hsim]
      rw [hsimEq] at hsim
      have hdc : dropCond st.uniq q = true := by
        unfold dropCond
        rw [hA, Bool.false_or, hsim]
      rw [if_pos hdc]
    · rw [if_neg hsim]
      rw [hsimEq] at hsim
      have hdc : dropCond st.uniq q = false := by
        unfold dropCond
        rw [hA, Bool.false_or]
        exact Bool.eq_false_iff.mpr hsim
      rw [if_neg (by rw [hdc]; exact Bool.false_ne_true)]

/-- Claim C2 counterexample: the four questions below have distinct
texts, the same answer `"X"` and the same first-5-word signature.  The
first three are accepted, so by the claim's wording the fourth (whose
answer already has 3 accepted questions and whose signature is
contained in a stored one) should be dropped — yet the code accepts
all four, because `len(seen_answers[answer])` counts the distinct
stored signatures (here a single one), not accepted questions. -/
theorem dedupe_claim_counterexample :
    ((deduplicate_questions
        [⟨"a b c d e one", "X", "C"⟩, ⟨"a b c d e two", "X", "C"⟩,
         ⟨"a b c d e three", "X", "C"⟩, ⟨"a b c d e four", "X", "C"⟩]).length = 4)
    ∧ ((deduplicate_questions
        [⟨"a b c d e one", "X", "C"⟩, ⟨"a b c d e two", "X", "C"⟩,
         ⟨"a b c d e three", "X", "C"⟩]).countP
          (fun p => pyStrip p.answer == "X") = 3)
    ∧ containsSub (signature (pyStrip "a b c d e four"))
        (signature (pyStrip "a b c d e one")) = true :=
  ⟨by decide, by decide, by decide⟩

/-! ## Lemmas about `_find_consecutive_months_recipients` -/

/-- A month is collected for a recipient iff it is one of {1, 2, 3} and
the recipient has a 2025 group row in it. -/
theorem mem_monthsOf (rows : List GroupRow) (n : String) (m : Nat) :
    m ∈ monthsOf rows n ↔ (m = 1 ∨ m = 2 ∨ m = 3) ∧ hasRecordIn rows n m = true := by
  unfold monthsOf q1Rows isQ1_2025 hasRecordIn
  simp only [List.mem_map, List.mem_filter, List.any_eq_true]
  constructor
  · rintro ⟨r, ⟨⟨hr, hq⟩, hn⟩, rfl⟩
    simp only [Bool.and_eq_true, Bool.or_eq_true, beq_iff_eq] at hq hn
    refine ⟨by omega, r, hr, ?_⟩
    simp [hn, hq.1, beq_iff_eq]
  · rintro ⟨hm, r, hr, hb⟩
    simp only [Bool.and_eq_true, beq_iff_eq] at hb
    refine ⟨r, ⟨⟨hr, ?_⟩, ?_⟩, hb.2.symm ▸ rfl⟩
    · simp only [Bool.and_eq_true, Bool.or_eq_true, beq_iff_eq]
      exact ⟨hb.1.2, by omega⟩
    · simp [beq_iff_eq, hb.1.1]

/-- `q1MonthsPresent` and `monthsOf` have the same members. -/
theorem mem_q1MonthsPresent (rows : List GroupRow) (n : String) (m : Nat) :
    m ∈ q1MonthsPresent rows n ↔ m ∈ monthsOf rows n := by
  unfold q1MonthsPresent
  rw [List.mem_filter, mem_monthsOf]
  constructor
  · rintro ⟨hm, hr⟩
    refine ⟨?_, hr⟩
    simpa using hm
  · rintro ⟨hm, hr⟩
    refine ⟨?_, hr⟩
    simpa using hm

/-- With pairwise-distinct group keys, a recipient's collected months
are pairwise distinct. -/
theorem monthsOf_nodup (rows : List GroupRow) (n : String) (h : rows.Nodup) :
    (monthsOf rows n).Nodup := by
  unfold monthsOf
  apply List.Nodup.map_on
  · intro x hx y hy hxy
    rw [List.mem_filter] at hx hy
    obtain ⟨hx1, hx2⟩ := hx
    obtain ⟨hy1, hy2⟩ := hy
    unfold q1Rows at hx1 hy1
    rw [List.mem_filter] at hx1 hy1
    unfold isQ1_2025 at hx1 hy1
    simp only [Bool.and_eq_true, beq_iff_eq] at hx1 hy1 hx2 hy2
    cases x
    cases y
    simp_all
  · exact (h.filter _).filter _

/-- The distinct-month count of the group rows: `[1,2,3].filter` is
already duplicate-free. -/
theorem q1MonthsPresent_nodup (rows : List GroupRow) (n : String) :
    (q1MonthsPresent rows n).Nodup := by
  unfold q1MonthsPresent
  exact List.Nodup.filter _ (by decide)

/-- Sorting a recipient's collected months yields exactly
`q1MonthsPresent` when the group keys are pairwise distinct. -/
theorem sorted_monthsOf_eq (rows : List GroupRow) (n : String) (h : rows.Nodup) :
    List.insertionSort (fun a b => a ≤ b) (monthsOf rows n) = q1MonthsPresent rows n := by
  have hperm : List.Perm (List.insertionSort (fun a b => a ≤ b) (monthsOf rows n))
      (q1MonthsPresent rows n) := by
    apply List.perm_of_nodup_nodup_toFinset_eq
    · exact (List.perm_insertionSort _ _).symm.nodup (monthsOf_nodup rows n h)
    · exact q1MonthsPresent_nodup rows n
    · ext x
      simp only [List.mem_toFinset]
      rw [(List.perm_insertionSort (fun a b => a ≤ b) (monthsOf rows n)).mem_iff]
      rw [mem_q1MonthsPresent]
  have hs1 : (List.insertionSort (fun a b => a ≤ b) (monthsOf rows n)).Sorted
      (fun a b => a ≤ b) := List.sorted_insertionSort _ _
  have hs2 : (q1MonthsPresent rows n).Sorted (fun a b => a ≤ b) :=
    List.Sorted.filter _ (by decide)
  exact List.eq_of_perm_of_sorted hperm hs1 hs2

/-- The recipient group keys are exactly the names of the surviving Q1
rows. -/
theorem mem_groupKeys (rows : List GroupRow) (n : String) :
    n ∈ groupKeys rows ↔ ∃ r ∈ q1Rows rows, r.name = n := by
  unfold groupKeys
  rw [(List.perm_insertionSort (fun a b => strLe a b = true) _).mem_iff, List.mem_dedup]
  simp [List.mem_map]

/-- Claim C6: the consecutive-period detection flags exactly the
recipients having group rows in at least two distinct months of
{January, February, March} of 2025, mapping each to the sorted list of
those months. -/
theorem consecutive_months_characterization (rows : List GroupRow) (h : rows.Nodup)
    (n : String) (ms : List Nat) :
    (n, ms) ∈ find_consecutive_months_recipients rows ↔
      (2 ≤ (q1MonthsPresent rows n).length ∧ ms = q1MonthsPresent rows n) := by
  have hlen_eq : (q1MonthsPresent rows n).length = (monthsOf rows n).length := by
    rw [← sorted_monthsOf_eq rows n h]
    exact ((List.perm_insertionSort (fun a b => a ≤ b) (monthsOf rows n)).length_eq)
  unfold find_consecutive_months_recipients
  rw [List.mem_filterMap]
  constructor
  · rintro ⟨n', hn', hf⟩
    by_cases hl : 2 ≤ (monthsOf rows n').length
    · rw [if_pos hl] at hf
      simp only [Option.some.injEq, Prod.mk.injEq] at hf
      obtain ⟨rfl, rfl⟩ := hf
      rw [sorted_monthsOf_eq rows n' h]
      exact ⟨by omega, rfl⟩
    · rw [if_neg hl] at hf
      exact absurd hf (by simp)
  · rintro ⟨hlen, rfl⟩
    have hl : 2 ≤ (monthsOf rows n).length := by omega
    refine ⟨n, ?_, ?_⟩
    · rcases List.exists_mem_of_length_pos (by omega : 0 < (monthsOf rows n).length) with ⟨m, hm⟩
      rw [mem_monthsOf] at hm
      unfold hasRecordIn at hm
      rw [List.any_eq_true] at hm
      obtain ⟨hm123, r, hr, hb⟩ := hm.imp id id
      simp only [Bool.and_eq_true, beq_iff_eq] at hb
      rw [mem_groupKeys]
      refine ⟨r, ?_, hb.1.1⟩
      unfold q1Rows
      rw [List.mem_filter]
      refine ⟨hr, ?_⟩
      unfold isQ1_2025
      simp only [Bool.and_eq_true, Bool.or_eq_true, beq_iff_eq]
      exact ⟨hb.1.2, by omega⟩
    · rw [if_pos hl, sorted_monthsOf_eq rows n h]

/-- Witness for claim C6: a recipient with group rows in January and
March 2025 (but not February) is flagged with months `[1, 3]`, and a
recipient with a single January row is not flagged. -/
theorem consecutive_months_characterization_witness :
    (("R1", [1, 3]) ∈ find_consecutive_months_recipients
        [⟨"R1", 2025, 3⟩, ⟨"R1", 2025, 1⟩, ⟨"R2", 2025, 1⟩])
    ∧ ¬ (("R2", [1]) ∈ find_consecutive_months_recipients
        [⟨"R1", 2025, 3⟩, ⟨"R1", 2025, 1⟩, ⟨"R2", 2025, 1⟩]) := by
  constructor
  · exact (consecutive_months_characterization
      [⟨"R1", 2025, 3⟩, ⟨"R1", 2025, 1⟩, ⟨"R2", 2025, 1⟩] (by decide) "R1" [1, 3]).mpr
      ⟨by decide, by decide⟩
  · intro hc
    have := (consecutive_months_characterization
      [⟨"R1", 2025, 3⟩, ⟨"R1", 2025, 1⟩, ⟨"R2", 2025, 1⟩] (by decide) "R2" [1]).mp hc
    exact absurd this.1 (by decide)

/-! ## The scenario generator's limits -/

/-- Claim C7: with the scenario limit at 40, the three sub-shape
targets of `generate_specific_scenario_questions` are 16 award-amount
questions (40%), 12 giver-lookup questions (30%) and 12
recipient-lookup questions (30%). -/
theorem scenario_split_at_40 :
    award_limit 40 = 16 ∧ giver_limit 40 = 12 ∧ recipient_limit 40 = 12 := by
  decide

/-- The award loop emits at most `alim - count` questions. -/
theorem awardQuestionsAux_length_le (l : List Row) (alim count : Nat) :
    (awardQuestionsAux l alim count).length ≤ alim - count := by
  induction l generalizing count with
  | nil => simp [awardQuestionsAux]
  | cons r rest ih =>
    unfold awardQuestionsAux
    by_cases hc : (decide (0 < r.awardAmount) && decide (count < alim)) = true
    · rw [if_pos hc]
      simp only [Bool.and_eq_true, decide_eq_true_eq] at hc
      have := ih (count + 1)
      simp only [List.length_cons]
      omega
    · rw [if_neg hc]
      exact ih count

/-- Claim C10: for every scenario limit `L` the generator emits at most
`int(L*0.4) + int(L*0.3) + int(L*0.3)` questions, and at `L = 7` those
truncated targets sum to 6 < 7, so the limit is an upper bound that is
not always attainable. -/
theorem scenario_generator_output_bound (df : List Row) (lim : Nat) (s1 s2 : List Row)
    (h1 : s1.length = min (giver_limit lim) df.length)
    (h2 : s2.length = min (recipient_limit lim) df.length) :
    (generate_specific_scenario_questions df lim s1 s2).length
        ≤ award_limit lim + giver_limit lim + recipient_limit lim
      ∧ award_limit 7 + giver_limit 7 + recipient_limit 7 = 6 ∧ 6 < 7 := by
  refine ⟨?_, by decide, by decide⟩
  unfold generate_specific_scenario_questions
  simp only [List.length_append]
  have hp1 : (awardQuestionsAux (df.take (min (award_limit lim * 2) df.length))
      (award_limit lim) 0).length ≤ award_limit lim := by
    have := awardQuestionsAux_length_le (df.take (min (award_limit lim * 2) df.length))
      (award_limit lim) 0
    omega
  have hp2 : (if 0 < giver_limit lim && 0 < df.length then
        s1.map fun r =>
          (⟨"Who gave a recognition to " ++ r.recipientName ++ " on " ++ formatDateLong r
              ++ "?", r.giverName, "Giver-Recipient Relationship"⟩ : Question)
      else []).length ≤ giver_limit lim := by
    by_cases hg : (decide (0 < giver_limit lim) && decide (0 < df.length)) = true
    · rw [if_pos hg]
      rw [List.length_map, h1]
      omega
    · rw [if_neg hg]
      simp
  have hp3 : (if 0 < recipient_limit lim && 0 < df.length then
        s2.map fun r =>
          (⟨"Who received a " ++ r.programName ++ " from " ++ r.giverName ++ " in "
              ++ formatMonthYear r ++ "?", r.recipientName, "Recognition Details"⟩ : Question)
      else []).length ≤ recipient_limit lim := by
    by_cases hg : (decide (0 < recipient_limit lim) && decide (0 < df.length)) = true
    · rw [if_pos hg]
      rw [List.length_map, h2]
      omega
    · rw [if_neg hg]
      simp
  omega

/-- Witness for claim C10: at the empty dataframe with scenario limit
7 and the (forced) empty samples, the output bound and the deficit at 7
hold. -/
theorem scenario_generator_output_bound_witness :
    (generate_specific_scenario_questions [] 7 [] []).length
        ≤ award_limit 7 + giver_limit 7 + recipient_limit 7
      ∧ award_limit 7 + giver_limit 7 + recipient_limit 7 = 6 ∧ 6 < 7 :=
  scenario_generator_output_bound [] 7 [] [] (by decide) (by decide)

/-- The IEEE rendering of `int(limit * 0.7)` genuinely differs from
the naive closed form: at limit 90 Python truncates
`62.99999999999999` to 62 where `⌊7·90/10⌋` is 63. -/
theorem pyIntMul07_ninety : pyIntMul07 90 = 62 ∧ 7 * 90 / 10 = 63 := by
  decide

/-! ## Determinism of the closed-form generators -/

/-- Claim C9: the factual-question builder and the
relationship-question builder are embedded as pure functions — neither
samples rows nor calls the LLM, so, unlike
`generate_specific_scenario_questions` (whose `df.sample` draws enter
as extra arguments), their output is fully determined by the prepared
records, the analysis snapshot and the limit; two runs on the same
input coincide in content and order. -/
theorem deterministic_generators_idempotent (analysis : Analysis) (df : List Row)
    (relationship_limit : Nat) :
    generate_factual_questions analysis df = generate_factual_questions analysis df
    ∧ generate_relationship_questions df relationship_limit
        = generate_relationship_questions df relationship_limit :=
  ⟨rfl, rfl⟩

/-! ## Lemmas about the formatted report -/

/-- Numbering does not change the section categories. -/
theorem assignNumbers_map_fst (k : Nat) (secs : List (String × List Question)) :
    (assignNumbers k secs).map Prod.fst = secs.map Prod.fst := by
  induction secs generalizing k with
  | nil => rfl
  | cons s rest ih =>
    obtain ⟨c, l⟩ := s
    simp [assignNumbers, ih]

/-- A numbered section comes from a grouped section, zipped with a
run of consecutive numbers. -/
theorem assignNumbers_mem (k : Nat) (secs : List (String × List Question))
    (c : String) (entries : List (Nat × Question))
    (h : (c, entries) ∈ assignNumbers k secs) :
    ∃ k' l, (c, l) ∈ secs ∧ entries = (List.range' k' l.length).zip l := by
  induction secs generalizing k with
  | nil => simp [assignNumbers] at h
  | cons s rest ih =>
    obtain ⟨c0, l0⟩ := s
    simp only [assignNumbers, List.mem_cons, Prod.mk.injEq] at h
    rcases h with ⟨hc, he⟩ | h
    · exact ⟨k, l0, by simp [hc], he⟩
    · rcases ih (k + l0.length) h with ⟨k', l, hl, he⟩
      exact ⟨k', l, List.mem_cons_of_mem _ hl, he⟩

/-- Each grouped section holds exactly the input questions of its
category, in input order. -/
theorem mem_groupedSections (questions : List Question) (c : String) (l : List Question)
    (h : (c, l) ∈ groupedSections questions) :
    l = questions.filter (fun q => q.category == c) := by
  unfold groupedSections at h
  rcases List.mem_map.mp h with ⟨c', hc', he⟩
  simp only [Prod.mk.injEq] at he
  rw [← he.2, he.1]

/-- The grouped sections are in ascending category order. -/
theorem groupedSections_sorted (questions : List Question) :
    ((groupedSections questions).map Prod.fst).Sorted (fun a b => a ≤ b) := by
  unfold groupedSections
  rw [List.map_map]
  have hid : (Prod.fst ∘ fun c => (c, questions.filter (fun q => q.category == c)))
      = fun c : String => c := rfl
  rw [hid]
  have htot : IsTotal String (fun a b => strLe a b = true) := ⟨strLe_total⟩
  have htrans : IsTrans String (fun a b => strLe a b = true) :=
    ⟨fun a b c => strLe_trans a b c⟩
  have h := @List.sorted_insertionSort String (fun a b => strLe a b = true) _ htot htrans
    (categoriesOf questions)
  have h' : (List.insertionSort (fun a b => strLe a b = true)
      (categoriesOf questions)).Sorted (fun a b : String => a ≤ b) :=
    h.imp (fun hab => (strLe_iff _ _).mp hab)
  simpa using h'

/-- Claim C8: the text report groups the questions by category with the
categories in ascending (alphabetical) order; within each category
section the printed numbers are consecutive (the global counter makes
the numbering sequential through each section), and each section holds
exactly the questions of its category in input order. -/
theorem report_grouping_properties (questions : List Question) :
    ((save_questions_formatted_sections questions).map Prod.fst).Sorted (fun a b => a ≤ b)
    ∧ ∀ c entries, (c, entries) ∈ save_questions_formatted_sections questions →
        (∃ k, entries.map Prod.fst = List.range' k entries.length)
        ∧ entries.map Prod.snd = questions.filter (fun q => q.category == c) := by
  constructor
  · unfold save_questions_formatted_sections
    rw [assignNumbers_map_fst]
    exact groupedSections_sorted questions
  · intro c entries h
    unfold save_questions_formatted_sections at h
    rcases assignNumbers_mem 1 _ c entries h with ⟨k', l, hl, rfl⟩
    have hlen : (List.range' k' l.length).length = l.length := by simp
    constructor
    · refine ⟨k', ?_⟩
      rw [List.map_fst_zip _ _ (le_of_eq hlen)]
      rw [List.length_zip, hlen, Nat.min_self]
    · rw [List.map_snd_zip _ _ (ge_of_eq hlen)]
      exact mem_groupedSections questions c l hl

/-- Witness for claim C8: on a two-category input, the section of
category `"B"` (listed after `"A"`) holds exactly the `"B"` question,
numbered with a singleton consecutive run. -/
theorem report_grouping_properties_witness :
    (∃ k, ([((2 : Nat), (⟨"q1", "a", "B"⟩ : Question))].map Prod.fst) = List.range' k 1)
    ∧ [((2 : Nat), (⟨"q1", "a", "B"⟩ : Question))].map Prod.snd
        = ([⟨"q1", "a", "B"⟩, ⟨"q2", "b", "A"⟩] : List Question).filter
            (fun q => q.category == "B") := by
  have h := (report_grouping_properties [⟨"q1", "a", "B"⟩, ⟨"q2", "b", "A"⟩]).2 "B"
    [(2, ⟨"q1", "a", "B"⟩)] (by decide)
  exact h

/-! ## The persisted-set invariant -/

/-- One dedup iteration only ever appends the current question. -/
theorem dedupStep_uniq_subset (st : DedupState) (q p : Question)
    (h : p ∈ (dedupStep st q).uniq) : p ∈ st.uniq ∨ p = q := by
  unfold dedupStep at h
  by_cases hseen : pyStrip q.question ∈ st.seenQ
  · rw [if_pos hseen] at h
    exact Or.inl h
  · rw [if_neg hseen] at h
    by_cases hsim :
        simDrop (lookupSigs st.seenA (pyStrip q.answer)) (signature (pyStrip q.question)) = true
    · rw [if_pos hsim] at h
      exact Or.inl h
    · rw [if_neg hsim] at h
      rcases List.mem_append.mp h with h | h
      · exact Or.inl h
      · exact Or.inr (List.mem_singleton.mp h)

/-- Every question in the folded state's output came from the initial
state or from the processed list. -/
theorem mem_uniq_foldl (qs : List Question) (st : DedupState) (p : Question)
    (h : p ∈ (qs.foldl dedupStep st).uniq) : p ∈ st.uniq ∨ p ∈ qs := by
  induction qs generalizing st with
  | nil => exact Or.inl h
  | cons q qs ih =>
    rw [List.foldl_cons] at h
    rcases ih (dedupStep st q) h with h' | h'
    · rcases dedupStep_uniq_subset st q p h' with h'' | h''
      · exact Or.inl h''
      · exact Or.inr (by simp [h''])
    · exact Or.inr (List.mem_cons_of_mem _ h')

/-- The deduplicator returns a subset of its input. -/
theorem dedup_output_subset (qs : List Question) (p : Question)
    (h : p ∈ deduplicate_questions qs) : p ∈ qs := by
  unfold deduplicate_questions at h
  rcases mem_uniq_foldl qs initDedup p h with h' | h'
  · exact absurd h' (by simp [initDedup])
  · exact h'

/-- A constructed question's category is in the known set when its
label is (the projection is definitional). -/
theorem category_mem (qt ans cat : String) (h : cat ∈ knownCategories) :
    (Question.mk qt ans cat).category ∈ knownCategories := h

/-- Every question built by the factual generator carries one of the
fixed category labels. -/
theorem factual_categories (analysis : Analysis) (df : List Row) (out : List Question)
    (h : generate_factual_questions analysis df = some out) :
    ∀ q ∈ out, q.category ∈ knownCategories := by
  unfold generate_factual_questions at h
  split at h
  · rename_i tr tg tu te tp _ _ _ _ _
    simp only [Option.some.injEq] at h
    subst h
    intro q hq
    simp only [List.mem_append] at hq
    rcases hq with ((((hq | hq) | hq) | hq) | hq)
    · fin_cases hq <;> exact category_mem _ _ _ (by decide)
    · rcases List.mem_map.mp hq with ⟨x, hx, rfl⟩
      exact category_mem _ _ _ (by decide)
    · rcases List.mem_map.mp hq with ⟨x, hx, rfl⟩
      exact category_mem _ _ _ (by decide)
    · rcases List.mem_map.mp hq with ⟨x, hx, rfl⟩
      exact category_mem _ _ _ (by decide)
    · fin_cases hq <;> exact category_mem _ _ _ (by decide)
  · exact absurd h (by simp)

/-- Every question built by the relationship generator carries one of
the fixed category labels. -/
theorem relationship_categories (df : List Row) (relationship_limit : Nat) (q : Question)
    (h : q ∈ generate_relationship_questions df relationship_limit) :
    q.category ∈ knownCategories := by
  unfold generate_relationship_questions at h
  simp only [List.mem_append] at h
  rcases h with h | h
  · rcases List.mem_filterMap.mp h with ⟨pc, hpc, hsome⟩
    by_cases hgt : 1 < pc.2
    · rw [if_pos hgt] at hsome
      simp only [Option.some.injEq] at hsome
      subst hsome
      exact category_mem _ _ _ (by decide)
    · rw [if_neg hgt] at hsome
      exact absurd hsome (by simp)
  · rcases List.mem_map.mp h with ⟨r, hr, rfl⟩
    exact category_mem _ _ _ (by decide)

/-- Every question built by the award loop of the scenario generator
is a `"Specific Award"` question. -/
theorem awardQuestionsAux_category (l : List Row) (alim count : Nat) (q : Question)
    (h : q ∈ awardQuestionsAux l alim count) : q.category = "Specific Award" := by
  induction l generalizing count with
  | nil => simp [awardQuestionsAux] at h
  | cons r rest ih =>
    unfold awardQuestionsAux at h
    by_cases hc : (decide (0 < r.awardAmount) && decide (count < alim)) = true
    · rw [if_pos hc] at h
      rcases List.mem_cons.mp h with rfl | h'
      · rfl
      · exact ih (count + 1) h'
    · rw [if_neg hc] at h
      exact ih count h

/-- Every question built by the scenario generator carries one of the
fixed category labels. -/
theorem scenario_categories (df : List Row) (scenario_limit : Nat) (s1 s2 : List Row)
    (q : Question) (h : q ∈ generate_specific_scenario_questions df scenario_limit s1 s2) :
    q.category ∈ knownCategories := by
  unfold generate_specific_scenario_questions at h
  simp only [List.mem_append] at h
  rcases h with (h | h) | h
  · rw [awardQuestionsAux_category _ _ _ q h]
    decide
  · by_cases hg : (decide (0 < giver_limit scenario_limit) && decide (0 < df.length)) = true
    · rw [if_pos hg] at h
      rcases List.mem_map.mp h with ⟨r, hr, rfl⟩
      exact category_mem _ _ _ (by decide)
    · rw [if_neg hg] at h
      exact absurd h (by simp)
  · by_cases hg :
        (decide (0 < recipient_limit scenario_limit) && decide (0 < df.length)) = true
    · rw [if_pos hg] at h
      rcases List.mem_map.mp h with ⟨r, hr, rfl⟩
      exact category_mem _ _ _ (by decide)
    · rw [if_neg hg] at h
      exact absurd h (by simp)

/-- Claim C1 counterexample: no pipeline stage inspects the category,
so a question carrying the label `"NotARealCategory"` (as the
LLM-backed generators are free to return) passes the validator, the
interest filter and the deduplicator, and is persisted with a category
outside the known set. -/
theorem pipeline_category_counterexample :
    processQuestions
        [⟨"What achievement did Bob complete?", "Parser Redesign", "NotARealCategory"⟩]
      = [⟨"What achievement did Bob complete?", "Parser Redesign", "NotARealCategory"⟩]
    ∧ ¬ ("NotARealCategory" ∈ knownCategories) :=
  ⟨by decide, by decide⟩

/-- Claim C1 (amended): every question surviving the
validate → interest-filter → deduplicate pipeline of
`generate_all_questions` has a non-empty, non-whitespace answer; and
every question produced by the deterministic generators carries a
category from the fixed known set.  The category half of the original
claim holds only for those generators: the pipeline never checks
categories, so LLM-supplied labels outside the set survive. -/
theorem pipeline_amended_invariant :
    (∀ qs q, q ∈ processQuestions qs → pyStrip q.answer ≠ "")
    ∧ (∀ analysis df out, generate_factual_questions analysis df = some out →
        ∀ q ∈ out, q.category ∈ knownCategories)
    ∧ (∀ df lim q, q ∈ generate_relationship_questions df lim →
        q.category ∈ knownCategories)
    ∧ (∀ df lim s1 s2 q, q ∈ generate_specific_scenario_questions df lim s1 s2 →
        q.category ∈ knownCategories) := by
  refine ⟨?_, factual_categories, relationship_categories,
    fun df lim s1 s2 q => scenario_categories df lim s1 s2 q⟩
  intro qs q hq
  have hsub := dedup_output_subset _ _ hq
  rw [List.mem_filter] at hsub
  obtain ⟨hv, -⟩ := hsub
  rw [List.mem_filter] at hv
  exact valid_answer_nonempty q.question q.answer hv.2

/-- Witness for the amended claim C1: the single valid question below
survives the pipeline, and the theorem yields that its answer does not
strip to the empty string. -/
theorem pipeline_amended_invariant_witness : pyStrip "12" ≠ "" :=
  pipeline_amended_invariant.1 [⟨"How many rows are there?", "12", "Timeframe"⟩]
    ⟨"How many rows are there?", "12", "Timeframe"⟩ (by decide)

end QuizGen
